import Mathlib

/-!
# MOVA Fleet Manager portal — verification of the core state logic

Shallow embedding of `src/src/App.tsx` (React + TypeScript demo portal).
TypeScript `number` is modelled as `Rat` (ℚ); TS strings as `String`;
optional fields as `Option`; the string-literal union types as inductives.
The React state-updater callbacks (`setPolicies`, `setExceptions`) are
modelled as pure functions from the previous collection to the next one.
-/

namespace Mova

/-- `Vehicle` record, `App.tsx` lines 14–23. -/
structure Vehicle where
  id : String
  plate : String
  driver : String
  lat : Rat
  lng : Rat
  spendToday : Rat
  spend7d : Rat
  spend30d : Rat
deriving DecidableEq, Repr

/-- Policy `scope` union `"Fuel-Only" | "Fuel+Maintenance" | "Fuel+Tolls+Parking"`,
`App.tsx` line 28. -/
inductive Scope where
  | FuelOnly
  | FuelMaintenance
  | FuelTollsParking
deriving DecidableEq, Repr

/-- Geofence center `{ lat: number; lng: number }`, `App.tsx` line 35. -/
structure GeoPoint where
  lat : Rat
  lng : Rat
deriving DecidableEq, Repr

/-- `Policy` record, `App.tsx` lines 25–39. -/
structure Policy where
  id : String
  name : String
  scope : Scope
  dailyLimit : Rat
  perTxnLimit : Rat
  maxFillsPerDay : Rat
  startHour : Rat
  endHour : Rat
  requiresMobileUnlock : Bool
  geofenceCenter : Option GeoPoint
  geofenceRadiusKm : Option Rat
  mccAllow : Option (List Int)
  mccBlock : Option (List Int)
deriving DecidableEq, Repr

/-- Exception `type` union, `App.tsx` line 47. -/
inductive ExceptionType where
  | OffRoute
  | TankOverfill
  | AfterHours
  | CardNotPresent
  | Velocity
  | MccBlocked
deriving DecidableEq, Repr

/-- Exception `status` union `"Open" | "Approved" | "Denied"`, `App.tsx` line 51. -/
inductive Status where
  | Open
  | Approved
  | Denied
deriving DecidableEq, Repr

/-- `ExceptionItem` record, `App.tsx` lines 41–52. -/
structure ExceptionItem where
  id : String
  time : String
  vehicleId : String
  plate : String
  driver : String
  type : ExceptionType
  amount : Rat
  location : String
  reason : String
  status : Status
deriving DecidableEq, Repr

/-- The `action` argument of `onAction`, the union `"Approved" | "Denied"`
(`App.tsx` line 411). In TS it is a subtype of the status strings. -/
inductive Decision where
  | Approved
  | Denied
deriving DecidableEq, Repr

/-- The status string denoted by a decision (`e.status = action` is a direct
assignment of the same string in TS). -/
def Decision.toStatus : Decision → Status
  | .Approved => .Approved
  | .Denied => .Denied

/-- `handleExceptionAction` (`App.tsx` lines 545–547):
`setExceptions(prev => prev.map(e => e.id === id ? { ...e, status: action } : e))`. -/
def handleExceptionAction (id : String) (action : Decision)
    (prev : List ExceptionItem) : List ExceptionItem :=
  prev.map (fun e => if e.id == id then { e with status := action.toStatus } else e)

/-- The status-filter dropdown value, union `"All" | "Open" | "Approved" | "Denied"`
(`App.tsx` line 414). -/
inductive StatusFilter where
  | All
  | Open
  | Approved
  | Denied
deriving DecidableEq, Repr

/-- The TS comparison `e.status === filter` between a status string and a filter
string (`App.tsx` line 417); `"All"` equals no status string. -/
def statusFilterEq (f : StatusFilter) (s : Status) : Bool :=
  match f, s with
  | .Open, .Open => true
  | .Approved, .Approved => true
  | .Denied, .Denied => true
  | _, _ => false

/-- The `filtered` list of `ExceptionsTable` (`App.tsx` lines 416–419):
`exceptions.filter(e => filter === "All" ? true : e.status === filter)`. -/
def filterExceptions (exceptions : List ExceptionItem) (filter : StatusFilter) :
    List ExceptionItem :=
  exceptions.filter (fun e => if filter == .All then true else statusFilterEq filter e.status)

/-- JavaScript `Array.prototype.findIndex`, returned as `Option Nat`
(TS returns `-1` for "no match", which `handleSavePolicy` tests with `idx >= 0`). -/
def jsFindIndex {α : Type} (pred : α → Bool) : List α → Option Nat
  | [] => none
  | x :: rest => if pred x then some 0 else (jsFindIndex pred rest).map (· + 1)

/-- `handleSavePolicy` (`App.tsx` lines 533–543): find the index of an existing
policy with the same id; if found, copy the array and overwrite that slot,
otherwise prepend the new policy. -/
def handleSavePolicy (p : Policy) (prev : List Policy) : List Policy :=
  match jsFindIndex (fun x => x.id == p.id) prev with
  | some idx => prev.set idx p
  | none => p :: prev

/-- The editor's `save` closure (`App.tsx` lines 253–255):
`onSave({ ...draft, id: draft.id === "new" ? ⟨P-$\x7bDate.now()\x7d⟩ : draft.id })`.
`Date.now()` is passed in as the `now` argument. -/
def save (draft : Policy) (now : Nat) : Policy :=
  { draft with id := if draft.id == "new" then "P-" ++ toString now else draft.id }

/-! ## MCC allowlist parsing (`App.tsx` lines 358–370)

The `onChange` handler of the MCC allowlist text field runs
`e.target.value.split(",").map(n => Number(n.trim())).filter(n => !Number.isNaN(n))`.
The JS builtins `split`, `trim` and `Number` are modelled below on `List Char`;
`Number` returning `NaN` is modelled as `none`. -/

/-- JavaScript `String.prototype.split(",")`: cut the character list at every
comma; the result always has one more entry than there are commas, so the empty
string yields `[[]]` and a trailing comma yields a trailing `[]`. -/
def splitOnComma : List Char → List (List Char)
  | [] => [[]]
  | c :: rest =>
    let ts := splitOnComma rest
    if c = ',' then [] :: ts
    else
      match ts with
      | [] => [[c]]
      | t :: ts0 => (c :: t) :: ts0

/-- JavaScript `String.prototype.trim()`: strip leading and trailing whitespace. -/
def trimChars (cs : List Char) : List Char :=
  ((cs.dropWhile Char.isWhitespace).reverse.dropWhile Char.isWhitespace).reverse

/-- The value of a digit character. -/
def digitVal (c : Char) : Nat := c.toNat - Char.toNat '0'

/-- A non-empty all-digit character list read as a natural number, else `none`. -/
def digitsToNat? (cs : List Char) : Option Nat :=
  if cs ≠ [] ∧ cs.all Char.isDigit then
    some (cs.foldl (fun acc c => acc * 10 + digitVal c) 0)
  else none

/-- JavaScript `Number(s)` on an already-trimmed string, for the integer fragment
relevant to MCC codes: the empty string is `0`, an optionally `-`-signed digit
string is its value, anything else is `NaN` (modelled `none`). -/
def jsToNumber : List Char → Option Int
  | [] => some 0
  | '-' :: rest => (digitsToNat? rest).map (fun n => -(n : Int))
  | cs => (digitsToNat? cs).map (fun n => (n : Int))

/-- `tokens.map(n => Number(n.trim())).filter(n => !Number.isNaN(n))`: each token
is trimmed and converted; the `NaN` results (`none`) are filtered out and the
remaining numeric values kept in order, which is exactly `filterMap`. -/
def parseTokens (tokens : List (List Char)) : List Int :=
  (tokens.map (fun n => jsToNumber (trimChars n))).filterMap id

/-- The full `onChange` parse of the MCC allowlist field (`App.tsx` 362–368). -/
def parseMccList (s : String) : List Int :=
  parseTokens (splitOnComma s.toList)

/-! ## Geospatial projection (`App.tsx` lines 96–108 and 122–125) -/

/-- The `spendKey` argument of `vehiclesToGeoJSON`:
`keyof Pick<Vehicle, "spendToday" | "spend7d" | "spend30d">`. -/
inductive SpendKey where
  | spendToday
  | spend7d
  | spend30d
deriving DecidableEq, Repr

/-- The field access `v[spendKey]`. -/
def Vehicle.spendAt (v : Vehicle) : SpendKey → Rat
  | .spendToday => v.spendToday
  | .spend7d => v.spend7d
  | .spend30d => v.spend30d

/-- One GeoJSON point feature: `properties` fields flattened, geometry
coordinates as the `[v.lng, v.lat]` pair. -/
structure Feature where
  id : String
  plate : String
  driver : String
  spend : Rat
  coordinates : Rat × Rat
deriving DecidableEq, Repr

/-- `vehiclesToGeoJSON` (`App.tsx` lines 96–108): one point feature per vehicle,
carrying id, plate, driver, the selected spend aggregate and `[lng, lat]`. -/
def vehiclesToGeoJSON (vehicles : List Vehicle) (spendKey : SpendKey) : List Feature :=
  vehicles.map (fun v =>
    { id := v.id, plate := v.plate, driver := v.driver,
      spend := v.spendAt spendKey, coordinates := (v.lng, v.lat) })

/-- The spend-window toolbar value, union `"today" | "7d" | "30d"` (`App.tsx` 116). -/
inductive SpendWindow where
  | today
  | d7
  | d30
deriving DecidableEq, Repr

/-- The key selection in `MapPanel` (`App.tsx` line 123):
`spendWindow === "today" ? "spendToday" : spendWindow === "7d" ? "spend7d" : "spend30d"`. -/
def spendKeyOfWindow : SpendWindow → SpendKey
  | .today => .spendToday
  | .d7 => .spend7d
  | .d30 => .spend30d

/-- The `geojson` memo of `MapPanel` (`App.tsx` lines 122–125). -/
def mapPanelGeojson (vehicles : List Vehicle) (w : SpendWindow) : List Feature :=
  vehiclesToGeoJSON vehicles (spendKeyOfWindow w)

/-! ## Policy compliance evaluation (spec §4.1)

The repository contains no `evaluate` function — only the policy editing form
exists — so the compliance predicate is modelled from the spec. -/

/-- Modelled from the spec: the `ViolationKind` values of §4.1, in the fixed
reporting order the spec lists them. The repository source does not define
this type; only the policy schema it refers to exists in `App.tsx`. -/
inductive ViolationKind where
  | AmountExceedsPerTxnLimit
  | AmountExceedsDailyLimit
  | FillCountExceeded
  | OutsideHourWindow
  | OutsideGeofence
  | MccBlocked
  | MccNotAllowed
deriving DecidableEq, Repr

/-- Modelled from the spec: the `transaction` input of `evaluate` (§4.1):
amount, hour-of-day of the timestamp, location, MCC, and the running same-day
fill count and cumulative spend. The repository source defines no such type. -/
structure Txn where
  amount : Rat
  hour : Rat
  lat : Rat
  lng : Rat
  mcc : Int
  priorDailyFillCount : Rat
  priorDailySpend : Rat
deriving DecidableEq, Repr

/-- Modelled from the spec: the result record of `evaluate` (§4.1). -/
structure EvalResult where
  allowed : Bool
  violations : List ViolationKind
deriving DecidableEq, Repr

/-- Modelled from the spec: the ordered violation checks of §4.1, each
contributing zero or one `ViolationKind`, concatenated in the fixed order.
The great-circle distance (haversine, spec §4.1) is not representable over ℚ,
so it is supplied as the `distKm` argument: `distKm (lat₁,lng₁) (lat₂,lng₂)`
is the distance in km used by the `OutsideGeofence` check. -/
def checkViolations (distKm : Rat × Rat → Rat × Rat → Rat) (p : Policy) (t : Txn) :
    List ViolationKind :=
  (if t.amount > p.perTxnLimit then [.AmountExceedsPerTxnLimit] else [])
  ++ (if t.priorDailySpend + t.amount > p.dailyLimit then [.AmountExceedsDailyLimit] else [])
  ++ (if t.priorDailyFillCount + 1 > p.maxFillsPerDay then [.FillCountExceeded] else [])
  ++ (if ¬(p.startHour ≤ t.hour ∧ t.hour < p.endHour) then [.OutsideHourWindow] else [])
  ++ (match p.geofenceCenter, p.geofenceRadiusKm with
      | some c, some r =>
        if distKm (t.lat, t.lng) (c.lat, c.lng) > r then [.OutsideGeofence] else []
      | _, _ => [])
  ++ (if t.mcc ∈ (p.mccBlock.getD []) then [.MccBlocked] else [])
  ++ (if (p.mccAllow.getD []) ≠ [] ∧ t.mcc ∉ (p.mccAllow.getD [])
        ∧ t.mcc ∉ (p.mccBlock.getD []) then [.MccNotAllowed] else [])

/-- Modelled from the spec: `evaluate(policy, transaction)` (§4.1); `allowed`
is true iff the violation sequence is empty. -/
def evaluate (distKm : Rat × Rat → Rat × Rat → Rat) (p : Policy) (t : Txn) : EvalResult :=
  let vs := checkViolations distKm p t
  { allowed := vs.isEmpty, violations := vs }

/-! ## Helper lemmas -/

theorem statusFilterEq_open (s : Status) : statusFilterEq .Open s = (s == .Open) := by
cases s <;> rfl

theorem statusFilterEq_approved (s : Status) : statusFilterEq .Approved s = (s == .Approved) := by
cases s <;> rfl

theorem statusFilterEq_denied (s : Status) : statusFilterEq .Denied s = (s == .Denied) := by
cases s <;> rfl

theorem filterMap_id_eq_filter_map {α : Type} (d : α) (l : List (Option α)) :
    l.filterMap id = (l.filter (fun o => o.isSome)).map (fun o => o.getD d) := by
induction l with
| nil => rfl
| cons o rest ih => cases o <;> simp [List.filterMap_cons, List.filter_cons, ih]

/-! ## C3 — exceptions filtering -/

/-- C3: for every list of exception items, filtering with statusFilter `"Open"`
returns exactly the subsequence of items whose status is `Open` (a sublist of
the input, containing an item iff it is an `Open` item of the input, hence
preserving the original relative order), filtering with `"All"` returns the
full input list unchanged, and likewise for `Approved` and `Denied`. -/
theorem filter_exceptions_exact_subsequence (items : List ExceptionItem) (f : StatusFilter) :
    filterExceptions items .All = items
    ∧ filterExceptions items .Open = items.filter (fun e => e.status == .Open)
    ∧ filterExceptions items .Approved = items.filter (fun e => e.status == .Approved)
    ∧ filterExceptions items .Denied = items.filter (fun e => e.status == .Denied)
    ∧ (filterExceptions items f).Sublist items
    ∧ (∀ e, e ∈ filterExceptions items .Open ↔ e ∈ items ∧ e.status = .Open) := by
refine ⟨?_, ?_, ?_, ?_, ?_, ?_⟩
· simp [filterExceptions]
· exact List.filter_congr (fun e _ => statusFilterEq_open e.status)
· exact List.filter_congr (fun e _ => statusFilterEq_approved e.status)
· exact List.filter_congr (fun e _ => statusFilterEq_denied e.status)
· exact List.filter_sublist _
· intro e
  rw [show filterExceptions items .Open = items.filter (fun e => e.status == .Open) from
    List.filter_congr (fun e _ => statusFilterEq_open e.status)]
  simp [List.mem_filter]

/-! ## C6 and C9 — MCC allowlist parsing -/

/-- C6: parsing the MCC allowlist field splits the input on commas and silently
drops every token that does not parse as a number: the result is exactly the
numeric values of the parseable tokens, in their original order — the whole
list never fails and no error is reported (the parse is total). -/
theorem parse_mcc_drops_unparseable_tokens (s : String) :
    parseMccList s =
      ((splitOnComma s.toList).filter (fun t => (jsToNumber (trimChars t)).isSome)).map
        (fun t => (jsToNumber (trimChars t)).getD 0) := by
rw [parseMccList, parseTokens, filterMap_id_eq_filter_map 0, List.filter_map, List.map_map]
rfl

/-- C9: an empty token (one whose trim is empty) is mapped to `0` rather than
dropped: inserting such a token anywhere inserts a `0` in the output, and in
particular the empty field parses to `[0]`, a trailing comma appends a `0`,
and a doubled comma contributes a `0` in the middle. -/
theorem parse_mcc_empty_token_yields_zero (pre post : List (List Char)) (t : List Char)
    (h : trimChars t = []) :
    parseTokens (pre ++ t :: post) = parseTokens pre ++ 0 :: parseTokens post
    ∧ parseMccList "" = [0]
    ∧ parseMccList "5541," = [5541, 0]
    ∧ parseMccList "12,,34" = [12, 0, 34] := by
refine ⟨?_, by decide, by decide, by decide⟩
simp [parseTokens, List.filterMap_append, List.filterMap_cons, h, jsToNumber]

/-- Witness for C9 at a concrete input: the doubled-comma token list. -/
theorem parse_mcc_empty_token_yields_zero_witness :
    parseTokens ([[Char.ofNat 49, Char.ofNat 50]] ++ [] :: [[Char.ofNat 51, Char.ofNat 52]])
      = parseTokens [[Char.ofNat 49, Char.ofNat 50]]
        ++ 0 :: parseTokens [[Char.ofNat 51, Char.ofNat 52]]
    ∧ parseMccList "" = [0]
    ∧ parseMccList "5541," = [5541, 0]
    ∧ parseMccList "12,,34" = [12, 0, 34] :=
parse_mcc_empty_token_yields_zero _ _ [] (by decide)

/-! ## C7 — geospatial projection -/

/-- C7: for every list of vehicles and every spend window, the projection used
by the map panel produces exactly one point feature per vehicle with no
filtering (same length, `i`-th feature from the `i`-th vehicle), each feature
carrying the vehicle's id, plate, driver, the spend aggregate selected by the
window, and the vehicle's coordinates. The function is pure by construction:
it is a Lean function of exactly its two arguments. -/
theorem vehicles_to_geojson_one_feature_per_vehicle (vehicles : List Vehicle)
    (w : SpendWindow) (i : Nat) (v : Vehicle) (h : vehicles[i]? = some v) :
    (mapPanelGeojson vehicles w).length = vehicles.length
    ∧ (mapPanelGeojson vehicles w)[i]? =
        some { id := v.id, plate := v.plate, driver := v.driver,
               spend := v.spendAt (spendKeyOfWindow w), coordinates := (v.lng, v.lat) } := by
constructor
· simp [mapPanelGeojson, vehiclesToGeoJSON]
· simp [mapPanelGeojson, vehiclesToGeoJSON, List.getElem?_map, h]

/-- A concrete vehicle used to witness C7. -/
def sampleVehicle : Vehicle :=
  { id := "V-101", plate := "NDL 123 GP", driver := "S. Dlamini",
    lat := -26, lng := 28, spendToday := 950, spend7d := 5400, spend30d := 21000 }

/-- Witness for C7: the projection of a one-vehicle list at window `today`. -/
theorem vehicles_to_geojson_one_feature_per_vehicle_witness :
    (mapPanelGeojson [sampleVehicle] .today).length = ([sampleVehicle] : List Vehicle).length
    ∧ (mapPanelGeojson [sampleVehicle] .today)[0]? =
        some { id := sampleVehicle.id, plate := sampleVehicle.plate,
               driver := sampleVehicle.driver,
               spend := sampleVehicle.spendAt (spendKeyOfWindow .today),
               coordinates := (sampleVehicle.lng, sampleVehicle.lat) } :=
vehicles_to_geojson_one_feature_per_vehicle [sampleVehicle] .today 0 sampleVehicle (by decide)

/-! ## C8 — triage frame property -/

/-- C8: a triage action modifies at most the `status` field of the items whose
id matches the given id (in particular, for a collection with unique ids, of
the single matching item): the collection keeps its length, every item whose id
differs is unchanged, a matching item keeps every field except `status` (the
record update `{ e with status := ... }`), and an action whose id matches no
item returns the collection unchanged without failing. -/
theorem triage_frame_property (items : List ExceptionItem) (tid : String) (d : Decision)
    (i : Nat) (e : ExceptionItem) (h : items[i]? = some e) :
    (handleExceptionAction tid d items).length = items.length
    ∧ (e.id ≠ tid → (handleExceptionAction tid d items)[i]? = some e)
    ∧ (e.id = tid → (handleExceptionAction tid d items)[i]? =
        some { e with status := d.toStatus })
    ∧ ((∀ x ∈ items, x.id ≠ tid) → handleExceptionAction tid d items = items) := by
refine ⟨?_, ?_, ?_, ?_⟩
· simp [handleExceptionAction]
· intro hne
  simp [handleExceptionAction, List.getElem?_map, h, hne]
· intro heq
  simp [handleExceptionAction, List.getElem?_map, h, heq]
· intro hall
  have : items.map (fun e => if e.id == tid then { e with status := d.toStatus } else e)
      = items.map id := by
    exact List.map_congr_left (fun x hx => by simp [hall x hx])
  simpa [handleExceptionAction] using this

/-- A concrete `Open` exception item used in witnesses. -/
def openItem : ExceptionItem :=
  { id := "E-9001", time := "2025-01-01T00:00:00Z", vehicleId := "V-104",
    plate := "PLK 908 LP", driver := "T. Mokoena", type := .AfterHours,
    amount := 680, location := "N1 North, Polokwane",
    reason := "Swipe at 22:37 outside allowed window", status := .Open }

/-- Witness for C8: approving the single matching item of a one-item queue. -/
theorem triage_frame_property_witness :
    (handleExceptionAction "E-9001" .Approved [openItem]).length
      = ([openItem] : List ExceptionItem).length
    ∧ (openItem.id ≠ "E-9001" →
        (handleExceptionAction "E-9001" .Approved [openItem])[0]? = some openItem)
    ∧ (openItem.id = "E-9001" →
        (handleExceptionAction "E-9001" .Approved [openItem])[0]? =
          some { openItem with status := Decision.Approved.toStatus })
    ∧ ((∀ x ∈ [openItem], x.id ≠ "E-9001") →
        handleExceptionAction "E-9001" .Approved [openItem] = [openItem]) :=
triage_frame_property [openItem] "E-9001" .Approved 0 openItem (by decide)

/-! ## C1 — triage on a terminal item (corrected)

The claim says a triage action on an `Approved` or `Denied` item fails with
`InvalidTransition` and leaves the status unchanged. `handleExceptionAction`
(`App.tsx` 545–547) performs no status check at all: it overwrites the status
of every matching item with the decision, whatever the prior status was, and
never reports an error. -/

/-- A concrete already-`Approved` exception item. -/
def approvedItem : ExceptionItem :=
  { id := "E-9002", time := "2025-01-01T01:00:00Z", vehicleId := "V-103",
    plate := "DBN 789 KZN", driver := "K. Naidoo", type := .OffRoute,
    amount := 420, location := "Queensburgh, Durban",
    reason := "Vehicle 8km outside geofence", status := .Approved }

/-- Counterexample to C1 as stated: triaging an `Approved` item with decision
`Denied` changes its status to `Denied` — the action neither fails nor leaves
the status unchanged, and it performs the transition `Approved → Denied`,
which is outside the claimed set of transitions. -/
theorem triage_on_approved_changes_status_cex :
    approvedItem.status = Status.Approved
    ∧ (handleExceptionAction "E-9002" .Denied [approvedItem]).map ExceptionItem.status
        = [Status.Denied]
    ∧ handleExceptionAction "E-9002" .Denied [approvedItem] ≠ [approvedItem] := by
refine ⟨rfl, by decide, by decide⟩

/-- C1 amended: a triage action never fails; it overwrites the status of the
matching item with the decision regardless of the item's prior status, so the
transitions actually performed are `s → Approved` and `s → Denied` for every
prior status `s` (including re-triage of `Approved` and `Denied` items), and
only the `status` field of the matching item changes. -/
theorem triage_sets_status_regardless_of_prior (items : List ExceptionItem) (tid : String)
    (d : Decision) (i : Nat) (e : ExceptionItem) (h : items[i]? = some e)
    (hid : e.id = tid) :
    (handleExceptionAction tid d items)[i]? = some { e with status := d.toStatus } := by
simp [handleExceptionAction, List.getElem?_map, h, hid]

/-- Witness for the amended C1: denying an already-approved item overwrites
its status with `Denied`. -/
theorem triage_sets_status_regardless_of_prior_witness :
    (handleExceptionAction "E-9002" .Denied [approvedItem])[0]? =
      some { approvedItem with status := Decision.Denied.toStatus } :=
triage_sets_status_regardless_of_prior [approvedItem] "E-9002" .Denied 0 approvedItem
  (by decide) (by decide)

/-! ## Policy save: helper lemmas -/

theorem jsFindIndex_eq_none_iff {α : Type} (pred : α → Bool) (l : List α) :
    jsFindIndex pred l = none ↔ ∀ x ∈ l, pred x = false := by
induction l with
| nil => simp [jsFindIndex]
| cons x rest ih =>
  by_cases hx : pred x
  · simp [jsFindIndex, hx]
  · simp only [jsFindIndex, hx, if_neg, Bool.false_eq_true, not_false_eq_true,
      Option.map_eq_none', ih, List.mem_cons]
    constructor
    · rintro hall y (rfl | hy)
      · simpa using hx
      · exact hall y hy
    · intro hall y hy
      exact hall y (Or.inr hy)

theorem jsFindIndex_eq_some {α : Type} {pred : α → Bool} {l : List α} {i : Nat}
    (h : jsFindIndex pred l = some i) :
    i < l.length ∧ ∃ x, l[i]? = some x ∧ pred x = true := by
induction l generalizing i with
| nil => simp [jsFindIndex] at h
| cons x rest ih =>
  by_cases hx : pred x
  · simp only [jsFindIndex, hx, if_pos, Option.some.injEq] at h
    subst h
    exact ⟨Nat.succ_pos _, x, by simp, hx⟩
  · simp only [jsFindIndex, hx, Bool.false_eq_true, if_neg, not_false_eq_true,
      Option.map_eq_some'] at h
    obtain ⟨j, hj, rfl⟩ := h
    obtain ⟨hlt, y, hy, hpy⟩ := ih hj
    exact ⟨Nat.succ_lt_succ hlt, y, by simpa using hy, hpy⟩

theorem freshly_minted_id_ne_new (s : String) : ("P-" ++ s) ≠ "new" := by
intro h
have hd : ("P-" ++ s).data = ("new" : String).data := by rw [h]
rw [String.data_append] at hd
simp at hd

/-! ## C10 — saving a policy with a fresh id prepends it -/

/-- C10: when the saved policy's id matches no stored policy's id, the save
prepends it — the result is the new policy followed by the previous
collection, every prior entry unchanged and in its original order. -/
theorem save_prepends_new_policy (p : Policy) (prev : List Policy)
    (h : ∀ q ∈ prev, q.id ≠ p.id) :
    handleSavePolicy p prev = p :: prev := by
have hnone : jsFindIndex (fun x => x.id == p.id) prev = none :=
  (jsFindIndex_eq_none_iff _ _).2 (fun x hx => by simpa using h x hx)
simp [handleSavePolicy, hnone]

/-- A concrete stored policy (the mock `P-1` of `App.tsx`, coordinates rounded
to integers so that witnesses evaluate by `decide`). -/
def samplePolicy : Policy :=
  { id := "P-1", name := "Driver Fuel-Only", scope := .FuelOnly,
    dailyLimit := 2500, perTxnLimit := 1500, maxFillsPerDay := 2,
    startHour := 6, endHour := 20, requiresMobileUnlock := true,
    geofenceCenter := some { lat := -26, lng := 28 }, geofenceRadiusKm := some 10,
    mccAllow := some [5541, 5542], mccBlock := none }

/-- Witness for C10: saving a policy with unmatched id `"P-9"` prepends it. -/
theorem save_prepends_new_policy_witness :
    handleSavePolicy { samplePolicy with id := "P-9" } [samplePolicy]
      = { samplePolicy with id := "P-9" } :: [samplePolicy] :=
save_prepends_new_policy { samplePolicy with id := "P-9" } [samplePolicy] (by decide)

/-! ## C4 — saving over an existing id replaces in place -/

/-- C4: when the saved policy's id equals the id of a stored policy, the save
replaces that entry in place — the matched position holds the new policy, the
length is unchanged, and every other position is unchanged; and a draft with
placeholder id `"new"` is saved under the freshly minted id `P-<now>` which is
never the string `"new"`. -/
theorem save_replaces_existing_policy_in_place (p draft : Policy) (now : Nat)
    (prev : List Policy) (h : ∃ q ∈ prev, q.id = p.id) :
    (∃ i, i < prev.length
      ∧ (∃ q, prev[i]? = some q ∧ q.id = p.id)
      ∧ (handleSavePolicy p prev).length = prev.length
      ∧ (handleSavePolicy p prev)[i]? = some p
      ∧ ∀ j, j ≠ i → (handleSavePolicy p prev)[j]? = prev[j]?)
    ∧ (draft.id = "new" →
        save draft now = { draft with id := "P-" ++ toString now }
        ∧ (save draft now).id ≠ "new") := by
constructor
· match hfind : jsFindIndex (fun x => x.id == p.id) prev with
  | none =>
    obtain ⟨q, hq, hid⟩ := h
    have := (jsFindIndex_eq_none_iff (fun x => x.id == p.id) prev).1 hfind q hq
    simp [hid] at this
  | some i =>
    obtain ⟨hlt, q, hq, hpq⟩ := jsFindIndex_eq_some hfind
    refine ⟨i, hlt, ⟨q, hq, by simpa using hpq⟩, ?_, ?_, ?_⟩
    · simp [handleSavePolicy, hfind]
    · simp [handleSavePolicy, hfind, List.getElem?_set_self', List.getElem?_eq_getElem hlt]
    · intro j hj
      simp [handleSavePolicy, hfind, List.getElem?_set_ne (Ne.symm hj)]
· intro hnew
  refine ⟨by simp [save, hnew], ?_⟩
  simpa [save, hnew] using freshly_minted_id_ne_new (toString now)

/-- Witness for C4: overwriting the stored `P-1` entry with an edited copy, and
minting an id for a draft whose id is `"new"`. -/
theorem save_replaces_existing_policy_in_place_witness :
    (∃ i, i < ([samplePolicy] : List Policy).length
      ∧ (∃ q, ([samplePolicy] : List Policy)[i]? = some q
          ∧ q.id = ({ samplePolicy with name := "Edited" } : Policy).id)
      ∧ (handleSavePolicy { samplePolicy with name := "Edited" } [samplePolicy]).length
          = ([samplePolicy] : List Policy).length
      ∧ (handleSavePolicy { samplePolicy with name := "Edited" } [samplePolicy])[i]?
          = some { samplePolicy with name := "Edited" }
      ∧ ∀ j, j ≠ i →
          (handleSavePolicy { samplePolicy with name := "Edited" } [samplePolicy])[j]?
            = ([samplePolicy] : List Policy)[j]?)
    ∧ (({ samplePolicy with id := "new" } : Policy).id = "new" →
        save { samplePolicy with id := "new" } 7
          = { ({ samplePolicy with id := "new" } : Policy) with id := "P-" ++ toString 7 }
        ∧ (save { samplePolicy with id := "new" } 7).id ≠ "new") :=
save_replaces_existing_policy_in_place { samplePolicy with name := "Edited" }
  { samplePolicy with id := "new" } 7 [samplePolicy] ⟨samplePolicy, by decide, by decide⟩

/-! ## C2 — validation on save (corrected)

The claim says a policy with `perTxnLimit > dailyLimit` or `startHour ≥
endHour` is rejected with `InvalidPolicy`, leaving the stored collection
unchanged. Neither the editor's `save` (`App.tsx` 253–255) nor
`handleSavePolicy` (533–543) performs any validation: every submitted policy
is stored unconditionally. -/

/-- A concrete policy violating both claimed validation rules:
`perTxnLimit (2) > dailyLimit (1)` and `startHour (22) ≥ endHour (6)`. -/
def invalidPolicy : Policy :=
  { id := "new", name := "Bad", scope := .FuelOnly,
    dailyLimit := 1, perTxnLimit := 2, maxFillsPerDay := 2,
    startHour := 22, endHour := 6, requiresMobileUnlock := false,
    geofenceCenter := none, geofenceRadiusKm := none,
    mccAllow := none, mccBlock := none }

/-- Counterexample to C2 as stated: saving `invalidPolicy` into the empty
collection is not rejected — the collection changes and afterwards contains a
policy with `perTxnLimit > dailyLimit` and `startHour ≥ endHour`. -/
theorem save_accepts_invalid_policy_cex :
    (save invalidPolicy 1).perTxnLimit > (save invalidPolicy 1).dailyLimit
    ∧ (save invalidPolicy 1).startHour ≥ (save invalidPolicy 1).endHour
    ∧ handleSavePolicy (save invalidPolicy 1) [] = [save invalidPolicy 1]
    ∧ handleSavePolicy (save invalidPolicy 1) [] ≠ ([] : List Policy) := by
refine ⟨by decide, by decide, by decide, by decide⟩

/-- C2 amended: saving performs no validation at all — even a policy with
`perTxnLimit > dailyLimit` or `startHour ≥ endHour` is stored (replacing the
entry with the same id, or prepended); no `InvalidPolicy` rejection exists, so
stored policies need not satisfy `perTxnLimit ≤ dailyLimit`. -/
theorem save_stores_policy_without_validation (draft : Policy) (now : Nat)
    (prev : List Policy)
    (_h : draft.perTxnLimit > draft.dailyLimit ∨ draft.startHour ≥ draft.endHour) :
    save draft now ∈ handleSavePolicy (save draft now) prev := by
match hfind : jsFindIndex (fun x => x.id == (save draft now).id) prev with
| none =>
  simp [handleSavePolicy, hfind]
| some i =>
  obtain ⟨hlt, -⟩ := jsFindIndex_eq_some hfind
  have : (prev.set i (save draft now))[i]? = some (save draft now) := by
    simp [List.getElem?_set_self', List.getElem?_eq_getElem hlt]
  simp only [handleSavePolicy, hfind]
  exact List.mem_iff_getElem?.2 ⟨i, this⟩

/-- Witness for the amended C2: the doubly-invalid `invalidPolicy` is stored. -/
theorem save_stores_policy_without_validation_witness :
    save invalidPolicy 1 ∈ handleSavePolicy (save invalidPolicy 1) [] :=
save_stores_policy_without_validation invalidPolicy 1 [] (Or.inl (by decide))

/-! ## C5 — evaluate: allowed iff no violations, fixed order, all checks run -/

theorem mem_ite_singleton {α : Type} {c : Prop} [Decidable c] {a x : α} :
    x ∈ (if c then [a] else []) ↔ c ∧ x = a := by
split_ifs with hc <;> simp [hc]

theorem sublist_ite_singleton_append {α : Type} {c : Prop} [Decidable c] {a : α}
    {l l' : List α} (h : l.Sublist l') :
    ((if c then [a] else []) ++ l).Sublist (a :: l') := by
split_ifs with hc
· exact h.cons₂ a
· exact h.cons a

/-- The geofence component of `checkViolations`, isolated for case analysis. -/
theorem mem_geofence_component {distKm : Rat × Rat → Rat × Rat → Rat} {p : Policy}
    {t : Txn} {x : ViolationKind} :
    (x ∈ match p.geofenceCenter, p.geofenceRadiusKm with
          | some c, some r =>
            if distKm (t.lat, t.lng) (c.lat, c.lng) > r then
              [ViolationKind.OutsideGeofence]
            else []
          | _, _ => ([] : List ViolationKind)) ↔
      (∃ c r, p.geofenceCenter = some c ∧ p.geofenceRadiusKm = some r
        ∧ distKm (t.lat, t.lng) (c.lat, c.lng) > r) ∧ x = .OutsideGeofence := by
rcases hc : p.geofenceCenter with - | c <;> rcases hr : p.geofenceRadiusKm with - | r
  <;> simp [mem_ite_singleton, and_comm]

theorem sublist_geofence_append {distKm : Rat × Rat → Rat × Rat → Rat} {p : Policy}
    {t : Txn} {l l' : List ViolationKind} (h : l.Sublist l') :
    ((match p.geofenceCenter, p.geofenceRadiusKm with
      | some c, some r =>
        if distKm (t.lat, t.lng) (c.lat, c.lng) > r then
          [ViolationKind.OutsideGeofence]
        else []
      | _, _ => ([] : List ViolationKind)) ++ l).Sublist (.OutsideGeofence :: l') := by
rcases p.geofenceCenter with - | c <;> rcases p.geofenceRadiusKm with - | r
· exact h.cons _
· exact h.cons _
· exact h.cons _
· exact sublist_ite_singleton_append h

theorem mem_checkViolations_iff (distKm : Rat × Rat → Rat × Rat → Rat) (p : Policy)
    (t : Txn) (x : ViolationKind) :
    x ∈ checkViolations distKm p t ↔
      (t.amount > p.perTxnLimit ∧ x = .AmountExceedsPerTxnLimit)
      ∨ (t.priorDailySpend + t.amount > p.dailyLimit ∧ x = .AmountExceedsDailyLimit)
      ∨ (t.priorDailyFillCount + 1 > p.maxFillsPerDay ∧ x = .FillCountExceeded)
      ∨ (¬(p.startHour ≤ t.hour ∧ t.hour < p.endHour) ∧ x = .OutsideHourWindow)
      ∨ ((∃ c r, p.geofenceCenter = some c ∧ p.geofenceRadiusKm = some r
            ∧ distKm (t.lat, t.lng) (c.lat, c.lng) > r) ∧ x = .OutsideGeofence)
      ∨ (t.mcc ∈ p.mccBlock.getD [] ∧ x = .MccBlocked)
      ∨ ((p.mccAllow.getD [] ≠ [] ∧ t.mcc ∉ p.mccAllow.getD []
            ∧ t.mcc ∉ p.mccBlock.getD []) ∧ x = .MccNotAllowed) := by
simp only [checkViolations, List.mem_append, mem_ite_singleton, mem_geofence_component,
  List.not_mem_nil, or_false, or_assoc]

/-- C5: for every policy, transaction and distance function, `evaluate` returns
`allowed = true` iff its violation sequence is empty; the violations always
form a subsequence of the fixed order `[AmountExceedsPerTxnLimit,
AmountExceedsDailyLimit, FillCountExceeded, OutsideHourWindow, OutsideGeofence,
MccBlocked, MccNotAllowed]`; and every check is evaluated (not short-circuited):
each kind appears in the result iff its own condition fails, independently of
the other checks. -/
theorem evaluate_allowed_iff_and_fixed_order (distKm : Rat × Rat → Rat × Rat → Rat)
    (p : Policy) (t : Txn) :
    ((evaluate distKm p t).allowed = true ↔ (evaluate distKm p t).violations = [])
    ∧ (evaluate distKm p t).violations.Sublist
        [.AmountExceedsPerTxnLimit, .AmountExceedsDailyLimit, .FillCountExceeded,
         .OutsideHourWindow, .OutsideGeofence, .MccBlocked, .MccNotAllowed]
    ∧ (.AmountExceedsPerTxnLimit ∈ (evaluate distKm p t).violations
        ↔ t.amount > p.perTxnLimit)
    ∧ (.AmountExceedsDailyLimit ∈ (evaluate distKm p t).violations
        ↔ t.priorDailySpend + t.amount > p.dailyLimit)
    ∧ (.FillCountExceeded ∈ (evaluate distKm p t).violations
        ↔ t.priorDailyFillCount + 1 > p.maxFillsPerDay)
    ∧ (.OutsideHourWindow ∈ (evaluate distKm p t).violations
        ↔ ¬(p.startHour ≤ t.hour ∧ t.hour < p.endHour))
    ∧ (.OutsideGeofence ∈ (evaluate distKm p t).violations
        ↔ ∃ c r, p.geofenceCenter = some c ∧ p.geofenceRadiusKm = some r
            ∧ distKm (t.lat, t.lng) (c.lat, c.lng) > r)
    ∧ (.MccBlocked ∈ (evaluate distKm p t).violations ↔ t.mcc ∈ p.mccBlock.getD [])
    ∧ (.MccNotAllowed ∈ (evaluate distKm p t).violations
        ↔ (p.mccAllow.getD [] ≠ [] ∧ t.mcc ∉ p.mccAllow.getD []
            ∧ t.mcc ∉ p.mccBlock.getD [])) := by
refine ⟨?_, ?_, ?_, ?_, ?_, ?_, ?_, ?_, ?_⟩
· simp [evaluate, List.isEmpty_iff]
· show (checkViolations distKm p t).Sublist _
  unfold checkViolations
  simp only [List.append_assoc]
  apply sublist_ite_singleton_append
  apply sublist_ite_singleton_append
  apply sublist_ite_singleton_append
  apply sublist_ite_singleton_append
  apply sublist_geofence_append
  apply sublist_ite_singleton_append
  split_ifs
  · exact List.Sublist.refl _
  · exact List.nil_sublist _
all_goals
  show _ ∈ checkViolations distKm p t ↔ _
  rw [mem_checkViolations_iff]
  simp

/-! Sanity checks: the two worked examples of spec §8 for `evaluate`. -/

/-- The example policy of spec §8 (`dailyLimit 2500`, `perTxnLimit 1500`,
hours `[6, 20)`, `mccAllow [5541, 5542]`, no geofence). -/
def specExamplePolicy : Policy :=
  { id := "P-1", name := "Driver Fuel-Only", scope := .FuelOnly,
    dailyLimit := 2500, perTxnLimit := 1500, maxFillsPerDay := 2,
    startHour := 6, endHour := 20, requiresMobileUnlock := true,
    geofenceCenter := none, geofenceRadiusKm := none,
    mccAllow := some [5541, 5542], mccBlock := none }

/-- Spec §8: amount 1600 at hour 10 with MCC 5541 yields exactly
`[AmountExceedsPerTxnLimit]`. -/
theorem evaluate_spec_example_overlimit :
    (evaluate (fun _ _ => 0) specExamplePolicy
      { amount := 1600, hour := 10, lat := 0, lng := 0, mcc := 5541,
        priorDailyFillCount := 0, priorDailySpend := 0 }).violations
      = [.AmountExceedsPerTxnLimit] := by
norm_num [evaluate, checkViolations, specExamplePolicy, List.cons_ne_nil]

/-- Spec §8: amount 400 at hour 23 with MCC 5812 yields exactly
`[OutsideHourWindow, MccNotAllowed]`. -/
theorem evaluate_spec_example_afterhours :
    (evaluate (fun _ _ => 0) specExamplePolicy
      { amount := 400, hour := 23, lat := 0, lng := 0, mcc := 5812,
        priorDailyFillCount := 0, priorDailySpend := 0 }).violations
      = [.OutsideHourWindow, .MccNotAllowed] := by
norm_num [evaluate, checkViolations, specExamplePolicy, List.cons_ne_nil]

end Mova
